import Mathlib

/-
Verification of the slurm-charms cluster-configuration reconciliation logic.

The definitions below are shallow embeddings of the Python sources:
  - charms/slurmctld/src/charm.py      (controller charm)
  - charms/slurmctld/src/constants.py
  - charms/slurmctld/src/interface_sackd.py
  - charms/slurmd/src/charm.py         (compute charm)
  - charms/sackd/src/charm.py          (login charm)
  - charms/sackd/src/interface_slurmctld.py

Python dictionaries are embedded as association lists in insertion order,
Python `str` values as `String`, fallible Python code as `Except String`
(the error string names the Python exception that would be raised), and
external command invocations as explicit lists of issued argument vectors.
-/

namespace SlurmCharms

/-! ## Python string/dict primitives used by the charms -/

/-- Split a character list at every separator character, keeping empty
pieces (there is always at least one piece), as Python
`str.split(separator)` does. -/
def splitCharsOn (p : Char → Bool) : List Char → List (List Char)
  | [] => [[]]
  | c :: cs =>
    if p c then
      [] :: splitCharsOn p cs
    else
      match splitCharsOn p cs with
      | [] => [[c]]
      | piece :: rest => (c :: piece) :: rest

/-- Python `s.split(sep)` for a one-character separator. -/
def pySplitOn (c : Char) (s : String) : List String :=
  (splitCharsOn (fun d => d = c) s.data).map String.mk

/-- Python `str.split()` with no separator: split on whitespace runs,
discarding empty pieces. -/
def pySplitWs (s : String) : List String :=
  ((splitCharsOn (fun c => c.isWhitespace) s.data).map String.mk).filter (fun t => t != "")

/-- Python `line.split(sep, maxsplit=1)`: at most one split, the remainder
(kept verbatim, later separators included) is the second piece. -/
def splitOnce (c : Char) (s : String) : List String :=
  match pySplitOn c s with
  | [] => [s]
  | x :: rest =>
    if rest = [] then [x] else [x, String.intercalate (String.singleton c) rest]

/-- Python `line.startswith("#")`. -/
def startsWithHash (s : String) : Bool :=
  match s.data with
  | c :: _ => c = '#'
  | [] => false

/-- Python `line.strip()`: remove leading and trailing whitespace. -/
def pyStrip (s : String) : String :=
  String.mk (((s.data.dropWhile Char.isWhitespace).reverse.dropWhile Char.isWhitespace).reverse)

/-- Python dict insertion: overwrite the value in place if the key exists,
otherwise append the pair, preserving insertion order. -/
def dictInsert (m : List (String × String)) (k v : String) : List (String × String) :=
  if m.any (fun p => p.1 == k) then
    m.map (fun p => if p.1 == k then (k, v) else p)
  else
    m ++ [(k, v)]

/-- True exactly when an `Except` computation ended in an error. -/
def isError {ε α : Type} : Except ε α → Bool
  | .error _ => true
  | .ok _ => false

instance {ε α : Type} [DecidableEq ε] [DecidableEq α] : DecidableEq (Except ε α)
  | .error e, .error f =>
    match decEq e f with
    | isTrue h => isTrue (congrArg Except.error h)
    | isFalse h => isFalse (fun hh => h (Except.error.inj hh))
  | .error _, .ok _ => isFalse (fun h => Except.noConfusion h)
  | .ok _, .error _ => isFalse (fun h => Except.noConfusion h)
  | .ok a, .ok b =>
    match decEq a b with
    | isTrue h => isTrue (congrArg Except.ok h)
    | isFalse h => isFalse (fun hh => h (Except.ok.inj hh))

/-- `pre` is a leading substring of `s` (structural, on the character
lists). -/
def strStartsWith (pre s : String) : Bool :=
  pre.data.isPrefixOf s.data

/-! ## Controller charm: transitioning-node diff (`_on_write_slurm_conf`) -/

/-- One `DownNodes` entry of the assembled `slurm.conf` document: a list of
node names plus the reason they are down. -/
structure DownNodesEntry where
  downNodes : List String
  reason : String
deriving DecidableEq, Repr

/-- `SlurmctldCharm._get_new_node_names_from_slurm_config`: collect every
down node name whose entry has reason "New node.". -/
def get_new_node_names_from_slurm_config : List DownNodesEntry → List String
  | [] => []
  | entry :: rest =>
    (if entry.reason = "New node." then entry.downNodes else [])
      ++ get_new_node_names_from_slurm_config rest

/-- `SlurmctldCharm._resume_nodes`: the argument vector of the single
`scontrol` invocation resuming `nodelist`. -/
def resume_nodes (nodelist : List String) : List String :=
  ["update", "nodename=" ++ String.intercalate "," nodelist, "state=resume"]

/-- Result of the transitioning-node step of a successful reconfiguration
pass: the transitioning list, the stored new-node list after the pass, and
the `scontrol` calls issued by this step. -/
structure WriteConfResult where
  transitioning : List String
  newNodesStored : List String
  scontrolCalls : List (List String)
deriving DecidableEq, Repr

/-- The transitioning-node portion of `SlurmctldCharm._on_write_slurm_conf`
(the part executed once a document has been assembled): diff the stored new
nodes against the new nodes derived from the assembled document, resume the
transitioning nodes in one batched call, and only then overwrite the stored
new-node list. -/
def write_slurm_conf_transition (newNodesFromStoredState : List String)
    (downNodes : List DownNodesEntry) : WriteConfResult :=
  let newNodesFromSlurmConfig := get_new_node_names_from_slurm_config downNodes
  let transitioningNodes :=
    newNodesFromStoredState.filter (fun node => !(newNodesFromSlurmConfig.contains node))
  if 0 < transitioningNodes.length then
    { transitioning := transitioningNodes
      newNodesStored := newNodesFromSlurmConfig
      scontrolCalls := [resume_nodes transitioningNodes] }
  else
    { transitioning := transitioningNodes
      newNodesStored := newNodesFromStoredState
      scontrolCalls := [] }

/-! ## Controller charm: drain/resume operator actions -/

/-- Outcome of one external `subprocess.check_output` invocation: normal
output, or a `CalledProcessError` carrying the command's output. -/
inductive CmdResult where
  | ok (output : String)
  | calledProcessError (output : String)
deriving DecidableEq, Repr

/-- What an action handler reported back: `set_results` key-value pairs or
an `event.fail` message. -/
inductive ActionOutcome where
  | results (kvs : List (String × String))
  | fail (message : String)
deriving DecidableEq, Repr

/-- Effect of an action handler: the shell command lines it invoked and the
outcome it reported. -/
structure ActionEffect where
  commands : List String
  outcome : ActionOutcome
deriving DecidableEq, Repr

/-- `SlurmctldCharm._on_drain_nodes_action`, parameterized by the result of
the single `scontrol` invocation it performs. -/
def drain_nodes_action (nodes reason : String) (run : CmdResult) : ActionEffect :=
  let cmd := "scontrol update nodename=" ++ nodes ++ " state=drain reason=\"" ++ reason ++ "\""
  match run with
  | .ok _ => { commands := [cmd], outcome := .results [("status", "draining"), ("nodes", nodes)] }
  | .calledProcessError out =>
    { commands := [cmd], outcome := .fail ("Error draining " ++ nodes ++ ": " ++ out) }

/-- `SlurmctldCharm._on_resume_nodes_action`, parameterized by the result of
the single `scontrol` invocation it performs. -/
def resume_nodes_action (nodes : String) (run : CmdResult) : ActionEffect :=
  let cmd := "scontrol update nodename=" ++ nodes ++ " state=idle"
  match run with
  | .ok _ => { commands := [cmd], outcome := .results [("status", "resuming"), ("nodes", nodes)] }
  | .calledProcessError out =>
    { commands := [cmd], outcome := .fail ("Error resuming " ++ nodes ++ ": " ++ out) }

/-- Stored state of the controller charm (`SlurmctldCharm._stored`). -/
structure CtldStoredState where
  default_partition : String
  jwt_key : String
  munge_key : String
  new_nodes : List String
  nhc_params : String
  slurm_installed : Bool
  slurmdbd_host : String
  user_supplied_slurm_conf_params : String
deriving DecidableEq, Repr

/-- `SlurmctldCharm._check_status`: the controller's readiness gate reads
only the installed flag. -/
def ctld_check_status (s : CtldStoredState) : Bool := s.slurm_installed

/-- The drain action as a step on the controller's stored state: the
handler body reads only the action parameters and runs one command, so the
stored state passes through untouched. -/
def ctld_drain_step (s : CtldStoredState) (nodes reason : String) (run : CmdResult) :
    CtldStoredState × ActionEffect :=
  (s, drain_nodes_action nodes reason run)

/-- The resume action as a step on the controller's stored state; as with
drain, the handler body never touches the stored state. -/
def ctld_resume_step (s : CtldStoredState) (nodes : String) (run : CmdResult) :
    CtldStoredState × ActionEffect :=
  (s, resume_nodes_action nodes run)

/-! ## Controller charm: configuration assembly (`_assemble_slurm_conf`) -/

/-- A Python scalar appearing inside a nested parameter map. -/
inductive PyScalar where
  | s (v : String)
  | b (v : Bool)
deriving DecidableEq, Repr

/-- A value of one `slurm.conf` parameter as built by the charm: a string,
a list of strings, or a nested string-keyed map. -/
inductive ConfValue where
  | str (v : String)
  | strList (v : List String)
  | map (v : List (String × PyScalar))
deriving DecidableEq, Repr

/-- `constants.CHARM_MAINTAINED_SLURM_CONF_PARAMETERS`. -/
def CHARM_MAINTAINED_SLURM_CONF_PARAMETERS : List (String × ConfValue) :=
  [("AuthAltParameters", .map [("jwt_key", .s "/var/lib/slurm/checkpoint/jwt_hs256.key")]),
   ("AuthAltTypes", .strList ["auth/jwt"]),
   ("AuthInfo", .map [("socket", .s "/var/run/munge/munge.socket.2")]),
   ("AuthType", .str "auth/munge"),
   ("GresTypes", .str "gpu"),
   ("HealthCheckInterval", .str "600"),
   ("HealthCheckNodeState", .strList ["ANY", "CYCLE"]),
   ("HealthCheckProgram", .str "/usr/sbin/charmed-hpc-nhc-wrapper"),
   ("MailProg", .str "/usr/bin/mail.mailutils"),
   ("PluginDir", .strList ["/usr/lib/x86_64-linux-gnu/slurm-wlm"]),
   ("PlugStackConfig", .str "/etc/slurm/plugstack.conf.d/plugstack.conf"),
   ("SelectType", .str "select/cons_tres"),
   ("SelectTypeParameters", .str "CR_CPU_Memory"),
   ("SlurmctldPort", .str "6817"),
   ("SlurmdPort", .str "6818"),
   ("StateSaveLocation", .str "/var/lib/slurm/checkpoint"),
   ("SlurmdSpoolDir", .str "/var/lib/slurm/slurmd"),
   ("SlurmctldLogFile", .str "/var/log/slurm/slurmctld.log"),
   ("SlurmdLogFile", .str "/var/log/slurm/slurmd.log"),
   ("SlurmdPidFile", .str "/var/run/slurmd.pid"),
   ("SlurmctldPidFile", .str "/var/run/slurmctld.pid"),
   ("SlurmUser", .str "slurm"),
   ("SlurmdUser", .str "root"),
   ("RebootProgram", .str "/usr/sbin/reboot --reboot")]

/-- `SlurmctldCharm._get_user_supplied_parameters`: parse the raw
`slurm-conf-parameters` config string into a dict.  A falsy (empty) config
value yields an empty dict; otherwise every line that does not start with
`#` and is not blank is split on `=`; a line without `=` makes the
subscript `line.split("=", 1)[1]` raise `IndexError`. -/
def get_user_supplied_parameters (customConfig : String) :
    Except String (List (String × String)) :=
  if customConfig = "" then
    .ok []
  else
    (pySplitOn '\n' customConfig).foldlM
      (fun acc line =>
        if !(startsWithHash line) && pyStrip line != "" then
          match splitOnce '=' line with
          | [k, v] => .ok (dictInsert acc k v)
          | _ => .error "IndexError: list index out of range"
        else
          .ok acc)
      []

/-- `_assemble_slurmctld_parameters` (nested in `_assemble_slurm_conf`).
The walrus target in

  if (user_supplied_slurmctld_parameters :=
        user_supplied_parameters.get("SlurmctldParameters", "") != ""):

binds the result of the comparison, a bool; iterating
`user_supplied_slurmctld_parameters.split(",")` then raises
`AttributeError` whenever the user supplied a non-empty value. -/
def assemble_slurmctld_parameters (userSuppliedParameters : List (String × String)) :
    Except String (List (String × PyScalar)) :=
  let slurmctldParameters : List (String × PyScalar) := [("enable_configless", .b true)]
  let user_supplied_slurmctld_parameters : Bool :=
    ((userSuppliedParameters.lookup "SlurmctldParameters").getD "") != ""
  if user_supplied_slurmctld_parameters then
    .error "AttributeError: bool object has no attribute split"
  else
    .ok slurmctldParameters

/-- Inputs of `_assemble_slurm_conf` that are external to the function:
container detection, charm config scalars, machine facts, the node and
partition parameters gathered over the slurmd relation (interface code),
and the stored database host and raw user override string. -/
structure AssembleInputs where
  isContainer : Bool
  clusterName : String
  ingressAddress : String
  hostname : String
  slurmdParameters : List (String × ConfValue)
  slurmdbdHost : String
  userSuppliedRaw : String
deriving Repr

/-- Python keyword-argument collection for one call site: pairs are added
left to right and a key already present raises `TypeError`. -/
def kwargsBuild (pairs : List (String × ConfValue)) :
    Except String (List (String × ConfValue)) :=
  pairs.foldlM
    (fun acc kv =>
      if acc.any (fun p => p.1 == kv.1) then
        .error ("TypeError: got multiple values for keyword argument " ++ kv.1)
      else
        .ok (acc ++ [kv]))
    []

/-- `SlurmctldCharm._assemble_slurm_conf`: parse the user overrides, build
the nested SlurmctldParameters map, the accounting block (only when a
database host is stored), then collect all keyword arguments of the
`SlurmConfig(...)` call in source order. -/
def assemble_slurm_conf (inp : AssembleInputs) :
    Except String (List (String × ConfValue)) := do
  let user ← get_user_supplied_parameters inp.userSuppliedRaw
  let slurmctldParams ← assemble_slurmctld_parameters user
  let accountingParams : List (String × ConfValue) :=
    if inp.slurmdbdHost != "" then
      [("AccountingStorageHost", .str inp.slurmdbdHost),
       ("AccountingStorageType", .str "accounting_storage/slurmdbd"),
       ("AccountingStoragePass", .str "/var/run/munge/munge.socket.2"),
       ("AccountingStoragePort", .str "6819")]
    else []
  let explicitKwargs : List (String × ConfValue) :=
    [("ClusterName", .str inp.clusterName),
     ("SlurmctldAddr", .str inp.ingressAddress),
     ("SlurmctldHost", .strList [inp.hostname]),
     ("SlurmctldParameters", .map slurmctldParams),
     ("ProctrackType", .str (if inp.isContainer then "proctrack/linuxproc" else "proctrack/cgroup")),
     ("TaskPlugin", .strList (if inp.isContainer then ["task/affinity"] else ["task/cgroup", "task/affinity"]))]
  kwargsBuild (explicitKwargs ++ accountingParams ++ CHARM_MAINTAINED_SLURM_CONF_PARAMETERS
    ++ inp.slurmdParameters ++ user.map (fun p => (p.1, ConfValue.str p.2)))

/-- The assembled document of a successful assembly (`[]` on error; used
only under a no-error hypothesis). -/
def docOf : Except String (List (String × ConfValue)) → List (String × ConfValue)
  | .ok d => d
  | .error _ => []

/-! ## Login charm: relation fact exchange (`sackd/src/interface_slurmctld.py`) -/

/-- The decoded `cluster_info` payload (fields of `SlurmctldAvailableEvent`). -/
structure SackdClusterInfo where
  auth_key : Option String
  slurmctld_host : Option String
deriving DecidableEq, Repr

/-- Visible outcome of `Slurmctld._on_relation_changed`: log-only no-op,
defer of the notification, a propagated decode error, or emission of one
`slurmctld_available` event. -/
inductive RelationChangedOutcome where
  | noop
  | defer
  | raised (err : String)
  | emitAvailable (info : SackdClusterInfo)
deriving DecidableEq, Repr

/-- `Slurmctld._on_relation_changed` of the sackd charm.  `appPresent` is
whether `event.app` is set, `appData` the counterpart application's data
bucket (`none` when absent), and `loads` the external `json.loads`
(`Except` error = `json.JSONDecodeError`). -/
def sackd_on_relation_changed (appPresent : Bool)
    (appData : Option (List (String × String)))
    (loads : String → Except String SackdClusterInfo) : RelationChangedOutcome :=
  if appPresent then
    match appData with
    | some data =>
      let clusterInfoJson := (data.lookup "cluster_info").getD ""
      if clusterInfoJson != "" then
        match loads clusterInfoJson with
        | .error e => .raised e
        | .ok info => .emitAvailable info
      else
        .defer
    | none => .noop
  else
    .noop

/-! ## Compute charm event handlers (`slurmd/src/charm.py`) -/

/-- How a handler finished: ordinary return, a deferred event, or an
escaped exception. -/
inductive HandlerOutcome where
  | ret
  | defer
  | raised (err : String)
deriving DecidableEq, Repr

/-- The dict comprehension
`{item.split("=")[0]: item.split("=")[1] for item in items}` shared by the
compute charm's partition-config and node-config parsers: the key is the
piece before the first `=`, the value the piece between the first and
second `=`; an item without `=` raises `IndexError`. -/
def parse_kv_items (items : List String) : Except String (List (String × String)) :=
  items.foldlM
    (fun acc item =>
      match pySplitOn '=' item with
      | k :: v :: _ => .ok (dictInsert acc k v)
      | _ => .error "IndexError: list index out of range")
    []

/-- A malformed `KEY=VALUE` item: one containing no `=` at all (its Python
`split("=")` has a single piece). -/
def noEqSign (item : String) : Bool := (pySplitOn '=' item).length == 1

/-- Stored state of the compute charm (`SlurmdCharm._stored` plus the
modelled enabled/running bit of the slurmd service). -/
structure SlurmdState where
  munge_key : String
  new_node : Bool
  nhc_conf : String
  nhc_params : String
  slurm_installed : Bool
  slurmctld_available : Bool
  slurmctld_host : String
  user_supplied_node_parameters : List (String × String)
  user_supplied_partition_parameters : List (String × String)
  service_enabled : Bool
deriving DecidableEq, Repr

/-- `SlurmdCharm._on_config_changed`: update the stored nhc-conf when the
config value is truthy and changed; on the leader, parse and validate the
partition-config string, rejecting it (log and plain return, no defer) when
an item is malformed (`IndexError`) or names an unknown parameter. -/
def slurmd_on_config_changed (validPartitionKeys : List String) (s : SlurmdState)
    (isLeader : Bool) (nhcConf : String) (partitionConfig : Option String) :
    SlurmdState × HandlerOutcome :=
  let s1 := if nhcConf != "" && nhcConf != s.nhc_conf then { s with nhc_conf := nhcConf } else s
  if isLeader then
    match partitionConfig with
    | none => (s1, .ret)
    | some cfg =>
      match parse_kv_items (pySplitWs cfg) with
      | .error _ => (s1, .ret)
      | .ok tmp =>
        if tmp.all (fun p => validPartitionKeys.contains p.1) then
          ({ s1 with user_supplied_partition_parameters := tmp }, .ret)
        else
          (s1, .ret)
  else
    (s1, .ret)

/-- `SlurmdCharm._on_slurmctld_available`: defer until installed, then
compare each event field with the stored value; a changed field that is
`None` causes an early return (wait for redelivery), a changed non-`None`
field is stored; only when all fields are settled is the availability flag
raised and the service restarted. -/
def slurmd_on_slurmctld_available (s : SlurmdState)
    (slurmctldHost mungeKey nhcParams : Option String) : SlurmdState × HandlerOutcome :=
  if !s.slurm_installed then (s, .defer) else
  if slurmctldHost != some s.slurmctld_host && slurmctldHost = none then (s, .ret) else
  let s1 := if slurmctldHost != some s.slurmctld_host then
      { s with slurmctld_host := slurmctldHost.getD "" } else s
  if mungeKey != some s1.munge_key && mungeKey = none then (s1, .ret) else
  let s2 := if mungeKey != some s1.munge_key then { s1 with munge_key := mungeKey.getD "" } else s1
  if nhcParams != some s2.nhc_params && nhcParams = none then (s2, .ret) else
  let s3 := if nhcParams != some s2.nhc_params then { s2 with nhc_params := nhcParams.getD "" } else s2
  ({ s3 with slurmctld_available := true, service_enabled := true }, .ret)

/-- `SlurmdCharm._on_slurmctld_unavailable`: clear every field populated by
the controller role, disable slurmd, drop the availability flag. -/
def slurmd_on_slurmctld_unavailable (s : SlurmdState) : SlurmdState :=
  { s with slurmctld_available := false, nhc_params := "", munge_key := "",
           slurmctld_host := "", service_enabled := false }

/-- `SlurmdCharm._on_node_config_action_event` (stored-state effect): parse
and validate the supplied node parameters; store them only when every item
parses, every key is known and every value non-empty, and they changed. -/
def slurmd_node_config_action (validNodeKeys : List String) (s : SlurmdState)
    (params : Option String) : SlurmdState :=
  match params with
  | none => s
  | some p =>
    match parse_kv_items (pySplitWs p) with
    | .error _ => s
    | .ok tmp =>
      if tmp.all (fun kv => validNodeKeys.contains kv.1)
          && tmp.all (fun kv => kv.2 != "") then
        if tmp != s.user_supplied_node_parameters then
          { s with user_supplied_node_parameters := tmp }
        else s
      else s

/-- Events dispatched to the compute charm, with the data each handler
reads from the outside world. -/
inductive SlurmdEvent where
  | install (success : Bool)
  | configChanged (isLeader : Bool) (nhcConf : String) (partitionConfig : Option String)
  | updateStatus
  | ctldAvailable (slurmctldHost mungeKey nhcParams : Option String)
  | ctldUnavailable
  | slurmdStarted
  | slurmdStopped
  | nodeConfigured
  | nodeConfig (params : Option String)
deriving DecidableEq

/-- One dispatch step of the compute charm: the stored state after the
matching handler runs. -/
def slurmd_step (validPartitionKeys validNodeKeys : List String) (s : SlurmdState) :
    SlurmdEvent → SlurmdState
  | .install success => if success then { s with slurm_installed := true } else s
  | .configChanged isLeader nhcConf partitionConfig =>
    (slurmd_on_config_changed validPartitionKeys s isLeader nhcConf partitionConfig).1
  | .updateStatus => s
  | .ctldAvailable slurmctldHost mungeKey nhcParams =>
    (slurmd_on_slurmctld_available s slurmctldHost mungeKey nhcParams).1
  | .ctldUnavailable => slurmd_on_slurmctld_unavailable s
  | .slurmdStarted => s
  | .slurmdStopped => s
  | .nodeConfigured => { s with new_node := false, service_enabled := true }
  | .nodeConfig params => slurmd_node_config_action validNodeKeys s params

/-! ## Login charm event handlers (`sackd/src/charm.py`) -/

/-- Stored state of the login charm (`SackdCharm._stored` plus the modelled
enabled bit of the sackd service). -/
structure SackdState where
  auth_key : String
  sackd_installed : Bool
  slurmctld_available : Bool
  slurmctld_host : String
  service_enabled : Bool
deriving DecidableEq, Repr

/-- `SackdCharm._on_slurmctld_available`: defer until installed, then the
same changed/`None` field discipline as the compute charm, ending with the
availability flag raised and the service enabled. -/
def sackd_on_slurmctld_available (s : SackdState) (slurmctldHost authKey : Option String) :
    SackdState × HandlerOutcome :=
  if !s.sackd_installed then (s, .defer) else
  if slurmctldHost != some s.slurmctld_host && slurmctldHost = none then (s, .ret) else
  let s1 := if slurmctldHost != some s.slurmctld_host then
      { s with slurmctld_host := slurmctldHost.getD "" } else s
  if authKey != some s1.auth_key && authKey = none then (s1, .ret) else
  let s2 := if authKey != some s1.auth_key then { s1 with auth_key := authKey.getD "" } else s1
  ({ s2 with slurmctld_available := true, service_enabled := true }, .ret)

/-- `SackdCharm._on_slurmctld_unavailable`: clear the controller-populated
fields, disable sackd, drop the availability flag. -/
def sackd_on_slurmctld_unavailable (s : SackdState) : SackdState :=
  { s with slurmctld_available := false, auth_key := "", slurmctld_host := "",
           service_enabled := false }

/-- Events dispatched to the login charm. -/
inductive SackdEvent where
  | install (success : Bool)
  | updateStatus
  | ctldAvailable (slurmctldHost authKey : Option String)
  | ctldUnavailable
deriving DecidableEq

/-- One dispatch step of the login charm.  A successful install records the
installation and disables the service so it does not start before the
relation is established. -/
def sackd_step (s : SackdState) : SackdEvent → SackdState
  | .install success =>
    if success then { s with sackd_installed := true, service_enabled := false } else s
  | .updateStatus => s
  | .ctldAvailable slurmctldHost authKey =>
    (sackd_on_slurmctld_available s slurmctldHost authKey).1
  | .ctldUnavailable => sackd_on_slurmctld_unavailable s

/-! ## Controller charm: config-changed override bookkeeping -/

/-- The `slurm-conf-parameters` branch of
`SlurmctldCharm._on_config_changed`: a non-`None` config value that differs
from the stored one is stored as-is (unparsed) and flags that a
reconfiguration pass must run.  Returns the stored string and that flag. -/
def ctld_config_changed_params (stored : String) (cfg : Option String) : String × Bool :=
  match cfg with
  | none => (stored, false)
  | some p => if p != stored then (p, true) else (stored, false)

/-! ## Controller charm: login-node relation publication
(`slurmctld/src/interface_sackd.py`) -/

/-- State relevant to the `login-node` relation: whether installation has
completed, the stored munge key, the controller hostname, and the
`cluster_info` value published on the application data bucket.  The
published JSON object is modelled structurally as its key-value pairs;
`none` stands for unset-or-empty. -/
structure CtldSackdRelState where
  slurm_installed : Bool
  munge_key : String
  hostname : String
  cluster_info : Option (List (String × String))
deriving DecidableEq, Repr

/-- Events that touch the `login-node` relation state: the install hook
(on the leader: generate keys, mark installed; failure: defer), and the
relation-created/broken hooks of `interface_sackd.Sackd`. -/
inductive CtldSackdEvent where
  | installSucceeded (generatedKey : String)
  | installFailed
  | relationCreated
  | relationBroken (isLeader : Bool)
deriving DecidableEq

/-- One step of the controller's login-node relation handling.
`Sackd._on_relation_created` defers while slurm is not installed and
publishes the two-key `cluster_info` JSON object once it is;
`Sackd._on_relation_broken` clears the published value on the leader. -/
def ctld_sackd_step (s : CtldSackdRelState) : CtldSackdEvent → CtldSackdRelState × HandlerOutcome
  | .installSucceeded generatedKey =>
    ({ s with slurm_installed := true, munge_key := generatedKey }, .ret)
  | .installFailed => (s, .defer)
  | .relationCreated =>
    if !s.slurm_installed then (s, .defer)
    else
      let published := [("auth_key", s.munge_key), ("slurmctld_host", s.hostname)]
      ({ s with cluster_info := some published }, .ret)
  | .relationBroken isLeader =>
    if isLeader then ({ s with cluster_info := none }, .ret) else (s, .ret)

/-- Run a sequence of login-node relation events from a start state. -/
def ctld_sackd_run (s : CtldSackdRelState) : List CtldSackdEvent → CtldSackdRelState
  | [] => s
  | e :: rest => ctld_sackd_run (ctld_sackd_step s e).1 rest

/-- Initial state of a fresh controller unit: nothing installed, no key,
nothing published. -/
def ctld_sackd_init (hostname : String) : CtldSackdRelState :=
  { slurm_installed := false, munge_key := "", hostname := hostname, cluster_info := none }

/-! ## Compute charm: `SlurmdCharm._ranges_and_strides`

The Python loop enumerates the input, groups the `(index, element)` pairs
with `itertools.groupby` keyed on `element - index` (consecutive values
share one key), renders each group as `first-last` (or the lone element),
accumulates the pieces with trailing commas, strips the trailing commas and
brackets the result.  Python's `str(int)` (decimal rendering) is embedded
as `intToStr` below. -/

/-- The character of decimal digit `d`. -/
def natDigitChar (d : Nat) : Char := Char.ofNat (48 + d)

/-- Digit list of `n` (most significant first, empty for 0); the first
argument is structural fuel, sufficient whenever it is at least `n`. -/
def natDigitsAux : Nat → Nat → List Char
  | _, 0 => []
  | 0, _ + 1 => []
  | fuel + 1, n + 1 => natDigitsAux fuel ((n + 1) / 10) ++ [natDigitChar ((n + 1) % 10)]

/-- Decimal rendering of a natural number. -/
def natToStr (n : Nat) : String := if n = 0 then "0" else String.mk (natDigitsAux n n)

/-- Python `str` of an `int`: decimal digits with a leading minus sign for
negative values. -/
def intToStr (i : Int) : String :=
  if i < 0 then "-" ++ natToStr i.natAbs else natToStr i.natAbs

/-- One step of `itertools.groupby` keyed on `element - index`: `curGroup`
is the current group, most recent pair first; a pair with the same key is
pushed onto it, otherwise the finished group is emitted and a new one
started. -/
def groupByDiffAux (curGroup : List (Int × Int)) (curKey : Int) :
    List (Int × Int) → List (List (Int × Int))
  | [] => [curGroup.reverse]
  | p :: ps =>
    if p.2 - p.1 = curKey then
      groupByDiffAux (p :: curGroup) curKey ps
    else
      curGroup.reverse :: groupByDiffAux [p] (p.2 - p.1) ps

/-- `itertools.groupby(enumerate(nums), key = element - index)`: the list
of groups of `(index, element)` pairs. -/
def groupByDiff : List (Int × Int) → List (List (Int × Int))
  | [] => []
  | p :: ps => groupByDiffAux [p] (p.2 - p.1) ps

/-- Python `enumerate` starting at index `i`. -/
def enumFrom (i : Int) : List Int → List (Int × Int)
  | [] => []
  | x :: xs => (i, x) :: enumFrom (i + 1) xs

/-- The loop body of `_ranges_and_strides`: a single-member group is a
stride `v,`; a longer group renders as `first-last,`. -/
def fmtGroup : List (Int × Int) → String
  | [] => ""
  | [p] => intToStr p.2 ++ ","
  | p :: q :: rest => intToStr p.2 ++ "-" ++ intToStr (((q :: rest).getLastD q).2) ++ ","

/-- Python `out.rstrip(",")`: drop every trailing comma. -/
def rstripComma (s : String) : String :=
  String.mk ((s.data.reverse.dropWhile (fun c => c = ',')).reverse)

/-- `SlurmdCharm._ranges_and_strides`. -/
def ranges_and_strides (nums : List Int) : String :=
  let out := (groupByDiff (enumFrom 0 nums)).foldl (fun acc g => acc ++ fmtGroup g) "["
  rstripComma out ++ "]"

/-- The spec-side decomposition of a list into maximal runs of consecutive
values: `runsAux a cur ys` scans `ys` with a current run from `a` to
`cur`. -/
def runsAux (a cur : Int) : List Int → List (Int × Int)
  | [] => [(a, cur)]
  | y :: ys => if y = cur + 1 then runsAux a y ys else (a, cur) :: runsAux y y ys

/-- Maximal runs of consecutive values of a list, as `(first, last)`
pairs. -/
def maxRuns : List Int → List (Int × Int)
  | [] => []
  | x :: xs => runsAux x x xs

/-- Spec-side rendering of one maximal run: an isolated value appears
alone, a run of length at least two as `first-last`. -/
def runText (p : Int × Int) : String :=
  if p.1 = p.2 then intToStr p.1 else intToStr p.1 ++ "-" ++ intToStr p.2

/-- Comma-separated join. -/
def joinComma : List String → String
  | [] => ""
  | [p] => p
  | p :: q :: rest => p ++ "," ++ joinComma (q :: rest)

/-- Modelled from the spec: the claimed output shape of the formatter — a
bracketed comma-separated list in which each maximal run of consecutive
values of length at least two appears as `first-last` and each isolated
value appears alone. -/
def spec_ranges_format (nums : List Int) : String :=
  "[" ++ joinComma ((maxRuns nums).map runText) ++ "]"


/-- The shape of the current group during a groupby scan, most recent pair
first: `m + 1` pairs descending pointwise from `(j, cur)`. -/
def descRun (j cur : Int) : Nat → List (Int × Int)
  | 0 => [(j, cur)]
  | m + 1 => (j, cur) :: descRun (j - 1) (cur - 1) m

/-- Concatenation of a list of strings. -/
def concatStr : List String → String
  | [] => ""
  | s :: rest => s ++ concatStr rest

/-- Strictly ascending list of integers: every element is smaller than its
successor. -/
def strictAsc : List Int → Bool
  | [] => true
  | [_] => true
  | x :: y :: rest => (decide (x < y)) && strictAsc (y :: rest)

/-! ## Claim theorems -/

/-- C1, counterexample: with stored previous new-node set `Sold = []` and an
assembled document whose derived new-node set is `Snew = ["n1"]`, the
transitioning set is empty and the recorded new-node set after the pass is
still `[]`, not the claimed `Snew`. -/
theorem c1_counterexample :
    (write_slurm_conf_transition [] [⟨["n1"], "New node."⟩]).newNodesStored ≠ ["n1"] := by
  decide

/-- C1 (amended): in the transitioning step of a successful reconfiguration
pass, the transitioning set is exactly `Sold − Snew`; when it is non-empty,
exactly one batched resume command comma-joining all transitioning node
names is issued and the recorded new-node set becomes exactly `Snew`; when
it is empty, no command is issued and the recorded new-node set is left
unchanged even if `Snew` differs from `Sold`. -/
theorem c1_transitioning_diff_amended (stored : List String) (downNodes : List DownNodesEntry) :
    (∀ n, n ∈ (write_slurm_conf_transition stored downNodes).transitioning ↔
        n ∈ stored ∧ n ∉ get_new_node_names_from_slurm_config downNodes)
    ∧ (write_slurm_conf_transition stored downNodes).scontrolCalls
        = (if (write_slurm_conf_transition stored downNodes).transitioning = [] then []
           else [["update",
                  "nodename=" ++ String.intercalate ","
                    (write_slurm_conf_transition stored downNodes).transitioning,
                  "state=resume"]])
    ∧ (write_slurm_conf_transition stored downNodes).newNodesStored
        = (if (write_slurm_conf_transition stored downNodes).transitioning = [] then stored
           else get_new_node_names_from_slurm_config downNodes) := by
  set snew := get_new_node_names_from_slurm_config downNodes with hsnew
  set t := stored.filter (fun node => !(snew.contains node)) with htdef
  have hw : write_slurm_conf_transition stored downNodes
      = if 0 < t.length
        then { transitioning := t, newNodesStored := snew, scontrolCalls := [resume_nodes t] }
        else { transitioning := t, newNodesStored := stored, scontrolCalls := [] } := rfl
  by_cases h : 0 < t.length
  · have hne : t ≠ [] := by
      intro hh
      rw [hh] at h
      simp at h
    rw [hw, if_pos h]
    refine ⟨?_, ?_, ?_⟩
    · intro n
      simp [htdef, List.mem_filter]
    · simp [hne, resume_nodes]
    · simp [hne]
  · have he : t = [] := by
      cases ht : t with
      | nil => rfl
      | cons a l => rw [ht] at h; simp at h
    rw [hw, if_neg h]
    refine ⟨?_, ?_, ?_⟩
    · intro n
      simp [htdef, List.mem_filter]
    · simp [he]
    · simp [he]

/-- C1 amended, witness: with `Sold = ["a", "b"]` and a document whose
new-node set is `["b"]`, the transitioning set is `["a"]`, one batched
resume command is issued, and the recorded set becomes `["b"]`. -/
theorem c1_transitioning_diff_amended_witness :
    (∀ n, n ∈ (write_slurm_conf_transition ["a", "b"] [⟨["b"], "New node."⟩]).transitioning ↔
        n ∈ ["a", "b"] ∧ n ∉ get_new_node_names_from_slurm_config [⟨["b"], "New node."⟩])
    ∧ (write_slurm_conf_transition ["a", "b"] [⟨["b"], "New node."⟩]).scontrolCalls
        = (if (write_slurm_conf_transition ["a", "b"] [⟨["b"], "New node."⟩]).transitioning = []
           then []
           else [["update",
                  "nodename=" ++ String.intercalate ","
                    (write_slurm_conf_transition ["a", "b"] [⟨["b"], "New node."⟩]).transitioning,
                  "state=resume"]])
    ∧ (write_slurm_conf_transition ["a", "b"] [⟨["b"], "New node."⟩]).newNodesStored
        = (if (write_slurm_conf_transition ["a", "b"] [⟨["b"], "New node."⟩]).transitioning = []
           then ["a", "b"]
           else get_new_node_names_from_slurm_config [⟨["b"], "New node."⟩]) :=
  c1_transitioning_diff_amended ["a", "b"] [⟨["b"], "New node."⟩]

/-- C2: a user override whose key also appears in the charm-maintained
defaults (here `GresTypes`) does not win the merge — the keyword-argument
expansion in the `SlurmConfig(...)` call raises `TypeError` for the
duplicated key, so configuration assembly fails instead of succeeding with
the override's value. -/
theorem c2_user_override_conflict_raises :
    isError (assemble_slurm_conf
      ⟨false, "charmedhpc", "10.0.0.1", "ctl-0", [], "", "GresTypes=gpu,shard"⟩) = true
    ∧ ("GresTypes", ConfValue.str "gpu") ∈ CHARM_MAINTAINED_SLURM_CONF_PARAMETERS
    ∧ get_user_supplied_parameters "GresTypes=gpu,shard"
        = Except.ok [("GresTypes", "gpu,shard")] := by
  refine ⟨by decide, by decide, by decide⟩

/-- C3: a non-empty user-supplied `SlurmctldParameters` value is never
merged key-by-key — the walrus assignment in
`_assemble_slurmctld_parameters` binds the boolean result of the `!= ""`
comparison, so iterating `.split(",")` over it raises `AttributeError` and
configuration assembly fails instead of completing. -/
theorem c3_slurmctld_parameters_crash :
    assemble_slurmctld_parameters [("SlurmctldParameters", "idle_on_node_suspend")]
      = Except.error "AttributeError: bool object has no attribute split"
    ∧ isError (assemble_slurm_conf
        ⟨false, "charmedhpc", "10.0.0.1", "ctl-0", [], "",
         "SlurmctldParameters=idle_on_node_suspend"⟩) = true := by
  refine ⟨by decide, by decide⟩

/-- C8: each drain/resume operator action invokes exactly one external
administrative command; a failed invocation is reported as an action
failure carrying the command's diagnostic output (and a successful one as
action results); in both cases the controller's stored state and its
readiness gate are untouched. -/
theorem c8_drain_resume_actions (s : CtldStoredState) (nodes reason out : String)
    (run : CmdResult) :
    (ctld_drain_step s nodes reason run).1 = s
    ∧ (ctld_resume_step s nodes run).1 = s
    ∧ ctld_check_status (ctld_drain_step s nodes reason run).1 = ctld_check_status s
    ∧ ctld_check_status (ctld_resume_step s nodes run).1 = ctld_check_status s
    ∧ (ctld_drain_step s nodes reason run).2.commands.length = 1
    ∧ (ctld_resume_step s nodes run).2.commands.length = 1
    ∧ (ctld_drain_step s nodes reason (.calledProcessError out)).2.outcome
        = .fail ("Error draining " ++ nodes ++ ": " ++ out)
    ∧ (ctld_resume_step s nodes (.calledProcessError out)).2.outcome
        = .fail ("Error resuming " ++ nodes ++ ": " ++ out)
    ∧ (ctld_drain_step s nodes reason (.ok out)).2.outcome
        = .results [("status", "draining"), ("nodes", nodes)]
    ∧ (ctld_resume_step s nodes (.ok out)).2.outcome
        = .results [("status", "resuming"), ("nodes", nodes)] := by
  refine ⟨rfl, rfl, rfl, rfl, ?_, ?_, rfl, rfl, rfl, rfl⟩
  · cases run <;> rfl
  · cases run <;> rfl

/-! ### Parser failure lemmas shared by several claims -/

theorem parse_kv_items_error_aux (items : List String) (acc : List (String × String))
    (h : ∃ item ∈ items, noEqSign item = true) :
    isError (items.foldlM
      (fun acc item =>
        match pySplitOn '=' item with
        | k :: v :: _ => Except.ok (dictInsert acc k v)
        | _ => Except.error "IndexError: list index out of range") acc) = true := by
  induction items generalizing acc with
  | nil => simp at h
  | cons it rest ih =>
    rw [List.foldlM_cons]
    rcases h with ⟨bad, hmem, hbad⟩
    rcases List.mem_cons.mp hmem with hb | hb
    · subst hb
      unfold noEqSign at hbad
      cases hsp : pySplitOn '=' bad with
      | nil => simp [hsp, Bind.bind, Except.bind, isError]
      | cons k tl =>
        cases tl with
        | nil => simp [hsp, Bind.bind, Except.bind, isError]
        | cons v tl2 => rw [hsp] at hbad; simp at hbad
    · cases hsp : pySplitOn '=' it with
      | nil => simp [hsp, Bind.bind, Except.bind, isError]
      | cons k tl =>
        cases tl with
        | nil => simp [hsp, Bind.bind, Except.bind, isError]
        | cons v tl2 =>
          simp only [hsp, Bind.bind, Except.bind]
          exact ih _ ⟨bad, hb, hbad⟩

theorem parse_kv_items_error (items : List String)
    (h : ∃ item ∈ items, noEqSign item = true) :
    isError (parse_kv_items items) = true :=
  parse_kv_items_error_aux items [] h

theorem user_params_fold_error (lines : List String) (acc : List (String × String))
    (h : ∃ line ∈ lines, (!(startsWithHash line) && pyStrip line != "") = true
        ∧ noEqSign line = true) :
    isError (lines.foldlM
      (fun acc line =>
        if !(startsWithHash line) && pyStrip line != "" then
          match splitOnce '=' line with
          | [k, v] => Except.ok (dictInsert acc k v)
          | _ => Except.error "IndexError: list index out of range"
        else Except.ok acc) acc) = true := by
  induction lines generalizing acc with
  | nil => simp at h
  | cons l rest ih =>
    rw [List.foldlM_cons]
    rcases h with ⟨bad, hmem, hcond, hbad⟩
    rcases List.mem_cons.mp hmem with hb | hb
    · subst hb
      unfold noEqSign at hbad
      have hx : ∃ x, pySplitOn '=' bad = [x] := by
        cases hsp : pySplitOn '=' bad with
        | nil => rw [hsp] at hbad; simp at hbad
        | cons k tl =>
          cases tl with
          | nil => exact ⟨k, rfl⟩
          | cons v tl2 => rw [hsp] at hbad; simp at hbad
      rcases hx with ⟨x, hx⟩
      have hso : splitOnce '=' bad = [x] := by
        unfold splitOnce
        rw [hx]
        simp
      rw [hcond]
      simp only [hso, if_true]
      simp [Bind.bind, Except.bind, isError]
    · by_cases hc : (!(startsWithHash l) && pyStrip l != "") = true
      · rw [hc]
        simp only [if_true]
        cases hsp : splitOnce '=' l with
        | nil => simp [Bind.bind, Except.bind, isError]
        | cons k tl =>
          cases tl with
          | nil => simp [Bind.bind, Except.bind, isError]
          | cons v tl2 =>
            cases tl2 with
            | nil =>
              simp only [Bind.bind, Except.bind]
              exact ih _ ⟨bad, hb, hcond, hbad⟩
            | cons z tl3 => simp [Bind.bind, Except.bind, isError]
      · rw [Bool.not_eq_true] at hc
        rw [hc]
        simp only [Bool.false_eq_true, if_false, Bind.bind, Except.bind]
        exact ih _ ⟨bad, hb, hcond, hbad⟩

theorem get_user_supplied_parameters_error (raw : String) (hraw : raw ≠ "")
    (h : ∃ line ∈ pySplitOn '\n' raw, (!(startsWithHash line) && pyStrip line != "") = true
        ∧ noEqSign line = true) :
    isError (get_user_supplied_parameters raw) = true := by
  unfold get_user_supplied_parameters
  rw [if_neg hraw]
  exact user_params_fold_error _ _ h

theorem slurmd_config_changed_malformed
    (validKeys : List String) (s : SlurmdState) (isLeader : Bool) (nhcConf : String)
    (cfg : String)
    (hbad : ∃ item ∈ pySplitWs cfg, noEqSign item = true) :
    (slurmd_on_config_changed validKeys s isLeader nhcConf
        (some cfg)).1.user_supplied_partition_parameters
        = s.user_supplied_partition_parameters
    ∧ (slurmd_on_config_changed validKeys s isLeader nhcConf (some cfg)).2
        = HandlerOutcome.ret := by
  have herr : isError (parse_kv_items (pySplitWs cfg)) = true := parse_kv_items_error _ hbad
  obtain ⟨e, he⟩ : ∃ e, parse_kv_items (pySplitWs cfg) = Except.error e := by
    cases hp : parse_kv_items (pySplitWs cfg) with
    | error e => exact ⟨e, rfl⟩
    | ok v => rw [hp] at herr; simp [isError] at herr
  have hred : slurmd_on_config_changed validKeys s isLeader nhcConf (some cfg)
      = ((if (nhcConf != "" && nhcConf != s.nhc_conf) = true
          then { s with nhc_conf := nhcConf } else s), .ret) := by
    cases isLeader <;> simp [slurmd_on_config_changed, he]
  rw [hred]
  constructor
  · split <;> rfl
  · rfl

/-! ### Availability-flag lemmas for the compute and login charms -/

theorem slurmd_config_changed_avail (v : List String) (s : SlurmdState) (l : Bool)
    (n : String) (p : Option String) :
    (slurmd_on_config_changed v s l n p).1.slurmctld_available = s.slurmctld_available := by
  cases p <;> cases l <;> simp only [slurmd_on_config_changed] <;> repeat' split
  all_goals rfl

theorem slurmd_available_monotone (s : SlurmdState) (h k n : Option String)
    (hs : s.slurmctld_available = true) :
    (slurmd_on_slurmctld_available s h k n).1.slurmctld_available = true := by
  simp only [slurmd_on_slurmctld_available]
  repeat' split
  all_goals simp_all

theorem slurmd_node_config_avail (v : List String) (s : SlurmdState) (p : Option String) :
    (slurmd_node_config_action v s p).slurmctld_available = s.slurmctld_available := by
  cases p with
  | none => rfl
  | some v2 =>
    simp only [slurmd_node_config_action]
    repeat' split
    all_goals rfl

theorem sackd_available_monotone (s : SackdState) (h k : Option String)
    (hs : s.slurmctld_available = true) :
    (sackd_on_slurmctld_available s h k).1.slurmctld_available = true := by
  simp only [sackd_on_slurmctld_available]
  repeat' split
  all_goals simp_all

/-! ### Keyword-argument collection lemmas -/

theorem kwargs_build_ok_aux (pairs : List (String × ConfValue))
    (acc doc : List (String × ConfValue))
    (h : (pairs.foldlM
      (fun acc kv =>
        if acc.any (fun p => p.1 == kv.1) then
          Except.error ("TypeError: got multiple values for keyword argument " ++ kv.1)
        else
          Except.ok (acc ++ [kv])) acc) = Except.ok doc) :
    doc = acc ++ pairs := by
  induction pairs generalizing acc with
  | nil =>
    simp only [List.foldlM_nil, pure, Except.pure] at h
    simp [(Except.ok.inj h).symm]
  | cons kv rest ih =>
    rw [List.foldlM_cons] at h
    by_cases hd : (acc.any (fun p => p.1 == kv.1)) = true
    · rw [hd] at h
      simp [Bind.bind, Except.bind] at h
    · rw [Bool.not_eq_true] at hd
      rw [hd] at h
      simp only [Bool.false_eq_true, if_false, Bind.bind, Except.bind] at h
      have := ih _ h
      simp [this]

theorem kwargs_build_ok (pairs doc : List (String × ConfValue))
    (h : kwargsBuild pairs = Except.ok doc) : doc = pairs := by
  have := kwargs_build_ok_aux pairs [] doc h
  simpa using this

theorem charm_params_not_accounting :
    ∀ kv ∈ CHARM_MAINTAINED_SLURM_CONF_PARAMETERS,
      strStartsWith "AccountingStorage" kv.1 = false := by decide

theorem assemble_decompose (inp : AssembleInputs) (doc : List (String × ConfValue))
    (h : assemble_slurm_conf inp = Except.ok doc) :
    ∃ u sp, get_user_supplied_parameters inp.userSuppliedRaw = Except.ok u
      ∧ assemble_slurmctld_parameters u = Except.ok sp
      ∧ doc =
        [("ClusterName", ConfValue.str inp.clusterName),
         ("SlurmctldAddr", ConfValue.str inp.ingressAddress),
         ("SlurmctldHost", ConfValue.strList [inp.hostname]),
         ("SlurmctldParameters", ConfValue.map sp),
         ("ProctrackType", ConfValue.str
            (if inp.isContainer then "proctrack/linuxproc" else "proctrack/cgroup")),
         ("TaskPlugin", ConfValue.strList
            (if inp.isContainer then ["task/affinity"] else ["task/cgroup", "task/affinity"]))]
        ++ (if inp.slurmdbdHost != "" then
              [("AccountingStorageHost", ConfValue.str inp.slurmdbdHost),
               ("AccountingStorageType", ConfValue.str "accounting_storage/slurmdbd"),
               ("AccountingStoragePass", ConfValue.str "/var/run/munge/munge.socket.2"),
               ("AccountingStoragePort", ConfValue.str "6819")]
            else [])
        ++ CHARM_MAINTAINED_SLURM_CONF_PARAMETERS
        ++ inp.slurmdParameters
        ++ u.map (fun p => (p.1, ConfValue.str p.2)) := by
  rw [assemble_slurm_conf] at h
  cases hu : get_user_supplied_parameters inp.userSuppliedRaw with
  | error e =>
    rw [hu] at h
    simp [Bind.bind, Except.bind] at h
  | ok u =>
    rw [hu] at h
    simp only [Bind.bind, Except.bind] at h
    cases hsp : assemble_slurmctld_parameters u with
    | error e =>
      rw [hsp] at h
      simp at h
    | ok sp =>
      rw [hsp] at h
      refine ⟨u, sp, rfl, hsp, ?_⟩
      have := kwargs_build_ok _ _ h
      simpa using this

/-! ### Login-node relation publication lemmas -/

theorem ctld_sackd_step_inv (s : CtldSackdRelState) (e : CtldSackdEvent)
    (h : s.cluster_info.isSome = true → s.slurm_installed = true) :
    (ctld_sackd_step s e).1.cluster_info.isSome = true →
      (ctld_sackd_step s e).1.slurm_installed = true := by
  cases e with
  | installSucceeded k => intro _; rfl
  | installFailed => exact h
  | relationCreated =>
    cases hi : s.slurm_installed with
    | false =>
      simp only [ctld_sackd_step, hi]
      intro hh
      exact h hh
    | true =>
      simp only [ctld_sackd_step, hi]
      intro _
      simp [hi]
  | relationBroken l =>
    cases l with
    | false => exact h
    | true =>
      simp only [ctld_sackd_step]
      intro hh
      simp at hh

theorem ctld_sackd_run_inv (events : List CtldSackdEvent) (s : CtldSackdRelState)
    (h : s.cluster_info.isSome = true → s.slurm_installed = true) :
    (ctld_sackd_run s events).cluster_info.isSome = true →
      (ctld_sackd_run s events).slurm_installed = true := by
  induction events generalizing s with
  | nil => exact h
  | cons e rest ih => exact ih _ (ctld_sackd_step_inv s e h)

/-! ### Lemmas for the ranges-and-strides formatter -/

theorem descRun_length (m : Nat) : ∀ (j cur : Int), (descRun j cur m).length = m + 1 := by
  induction m with
  | zero => intro j cur; rfl
  | succ m ih => intro j cur; simp [descRun, ih]

theorem descRun_getLast (m : Nat) : ∀ (j cur : Int),
    (descRun j cur m).getLast? = some (j - m, cur - m) := by
  induction m with
  | zero => intro j cur; simp [descRun]
  | succ m ih =>
    intro j cur
    obtain ⟨p, t, hpt⟩ : ∃ p t, descRun (j - 1) (cur - 1) m = p :: t := by
      cases m with
      | zero => exact ⟨_, _, rfl⟩
      | succ m2 => exact ⟨_, _, rfl⟩
    rw [show descRun j cur (m + 1) = (j, cur) :: descRun (j - 1) (cur - 1) m from rfl]
    rw [hpt, List.getLast?_cons_cons, ← hpt, ih]
    congr 1
    push_cast
    refine Prod.ext ?_ ?_ <;> dsimp only <;> ring

theorem fmtGroup_eq_range (l : List (Int × Int)) (x y : Int × Int)
    (hh : l.head? = some x) (hl : l.getLast? = some y) (hlen : 2 ≤ l.length) :
    fmtGroup l = intToStr x.2 ++ "-" ++ intToStr y.2 ++ "," := by
  cases l with
  | nil => simp at hh
  | cons a t =>
    have hax : a = x := by simpa using hh
    subst hax
    cases t with
    | nil => simp at hlen
    | cons b t2 =>
      rw [show fmtGroup (a :: b :: t2)
          = intToStr a.2 ++ "-" ++ intToStr (((b :: t2).getLastD b).2) ++ "," from rfl]
      have h2 : (b :: t2).getLast? = some y := by
        rw [← List.getLast?_cons_cons (a := a)]
        exact hl
      have h3 : (b :: t2).getLastD b = y := by
        rw [List.getLastD_eq_getLast?, h2]
        rfl
      rw [h3]

theorem fmtGroup_descRun (m : Nat) (j cur : Int) :
    fmtGroup ((descRun j cur m).reverse) = runText (cur - m, cur) ++ "," := by
  cases m with
  | zero =>
    show fmtGroup [(j, cur)] = runText (cur - (0:Nat), cur) ++ ","
    rw [show fmtGroup [(j, cur)] = intToStr cur ++ "," from rfl]
    rw [runText]
    rw [if_pos (by push_cast; ring)]
    norm_num
  | succ m =>
    have hh : ((descRun j cur (m + 1)).reverse).head? = some (j - (m + 1), cur - (m + 1)) := by
      rw [List.head?_reverse, descRun_getLast]
      norm_cast
    have hl : ((descRun j cur (m + 1)).reverse).getLast? = some (j, cur) := by
      rw [List.getLast?_reverse]
      rfl
    have hlen : 2 ≤ ((descRun j cur (m + 1)).reverse).length := by
      rw [List.length_reverse, descRun_length]
      omega
    rw [fmtGroup_eq_range _ _ _ hh hl hlen]
    rw [runText]
    rw [if_neg (by push_cast; omega)]
    dsimp only
    push_cast
    rfl

theorem groupaux_eq_runs (ys : List Int) : ∀ (j cur : Int) (m : Nat),
    (groupByDiffAux (descRun j cur m) (cur - j) (enumFrom (j + 1) ys)).map fmtGroup
      = (runsAux (cur - m) cur ys).map (fun p => runText p ++ ",") := by
  induction ys with
  | nil =>
    intro j cur m
    rw [show enumFrom (j + 1) ([] : List Int) = [] from rfl]
    rw [show groupByDiffAux (descRun j cur m) (cur - j) [] = [(descRun j cur m).reverse] from rfl]
    rw [show runsAux (cur - (m:Nat)) cur [] = [(cur - (m:Nat), cur)] from rfl]
    simp only [List.map_cons, List.map_nil]
    rw [fmtGroup_descRun]
  | cons y ys ih =>
    intro j cur m
    rw [show enumFrom (j + 1) (y :: ys) = (j + 1, y) :: enumFrom (j + 1 + 1) ys from rfl]
    rw [show groupByDiffAux (descRun j cur m) (cur - j) ((j + 1, y) :: enumFrom (j + 1 + 1) ys)
        = (if (j + 1, y).2 - (j + 1, y).1 = cur - j then
            groupByDiffAux ((j + 1, y) :: descRun j cur m) (cur - j) (enumFrom (j + 1 + 1) ys)
          else
            (descRun j cur m).reverse ::
              groupByDiffAux [(j + 1, y)] ((j + 1, y).2 - (j + 1, y).1)
                (enumFrom (j + 1 + 1) ys)) from rfl]
    dsimp only
    by_cases hc : y = cur + 1
    · rw [if_pos (by omega)]
      have hpush : ((j + 1, y) :: descRun j cur m) = descRun (j + 1) y (m + 1) := by
        rw [show descRun (j + 1) y (m + 1) = (j + 1, y) :: descRun (j + 1 - 1) (y - 1) m from rfl]
        rw [show (j : Int) + 1 - 1 = j by ring]
        rw [show (y : Int) - 1 = cur by omega]
      rw [hpush]
      have h2 := ih (j + 1) y (m + 1)
      rw [show y - (j + 1) = cur - j by omega] at h2
      rw [show (y : Int) - ((m + 1 : Nat) : Int) = cur - (m : Nat) by push_cast; omega] at h2
      rw [h2]
      rw [show runsAux (cur - (m:Nat)) cur (y :: ys)
          = if y = cur + 1 then runsAux (cur - (m:Nat)) y ys
            else (cur - (m:Nat), cur) :: runsAux y y ys from rfl]
      rw [if_pos hc]
    · rw [if_neg (by omega)]
      simp only [List.map_cons]
      rw [fmtGroup_descRun]
      have h2 := ih (j + 1) y 0
      rw [show descRun (j + 1) y 0 = [(j + 1, y)] from rfl] at h2
      rw [show y - ((0:Nat):Int) = y by norm_num] at h2
      rw [h2]
      rw [show runsAux (cur - (m:Nat)) cur (y :: ys)
          = if y = cur + 1 then runsAux (cur - (m:Nat)) y ys
            else (cur - (m:Nat), cur) :: runsAux y y ys from rfl]
      rw [if_neg hc]
      rw [List.map_cons]

theorem groups_eq_runs (nums : List Int) :
    (groupByDiff (enumFrom 0 nums)).map fmtGroup
      = (maxRuns nums).map (fun p => runText p ++ ",") := by
  cases nums with
  | nil => rfl
  | cons x xs =>
    have h := groupaux_eq_runs xs 0 x 0
    rw [show descRun 0 x 0 = [(0, x)] from rfl] at h
    rw [show (x : Int) - ((0:Nat):Int) = x by norm_num] at h
    rw [show enumFrom 0 (x :: xs) = (0, x) :: enumFrom (0 + 1) xs from rfl]
    rw [show groupByDiff ((0, x) :: enumFrom (0 + 1) xs)
        = groupByDiffAux [(0, x)] ((0, x).2 - (0, x).1) (enumFrom (0 + 1) xs) from rfl]
    dsimp only
    rw [show maxRuns (x :: xs) = runsAux x x xs from rfl]
    exact h

theorem strAppend_assoc (a b c : String) : a ++ b ++ c = a ++ (b ++ c) := by
  apply String.ext
  simp only [String.data_append, List.append_assoc]

theorem strAppend_empty_right (s : String) : s ++ "" = s := by
  apply String.ext
  simp only [String.data_append]
  exact List.append_nil _

theorem foldl_append_concat (parts : List String) : ∀ (a : String),
    parts.foldl (fun x y => x ++ y) a = a ++ concatStr parts := by
  induction parts with
  | nil => intro a; rw [List.foldl_nil, show concatStr [] = "" from rfl, strAppend_empty_right]
  | cons p rest ih =>
    intro a
    rw [List.foldl_cons, ih (a ++ p), show concatStr (p :: rest) = p ++ concatStr rest from rfl]
    rw [strAppend_assoc]

theorem concatStr_map_comma (rest : List String) : ∀ (p : String),
    concatStr ((p :: rest).map (fun s => s ++ ",")) = joinComma (p :: rest) ++ "," := by
  induction rest with
  | nil =>
    intro p
    rw [show joinComma [p] = p from rfl]
    rw [List.map_cons, List.map_nil, show concatStr [p ++ ","] = (p ++ ",") ++ concatStr [] from rfl]
    rw [show concatStr [] = "" from rfl, strAppend_empty_right]
  | cons q rest ih =>
    intro p
    rw [show joinComma (p :: q :: rest) = p ++ "," ++ joinComma (q :: rest) from rfl]
    rw [List.map_cons]
    rw [show concatStr ((p ++ ",") :: (q :: rest).map (fun s => s ++ ","))
        = (p ++ ",") ++ concatStr ((q :: rest).map (fun s => s ++ ",")) from rfl]
    rw [ih q]
    rw [strAppend_assoc (p ++ ",") (joinComma (q :: rest)) ","]

theorem getLastD_append_right (l₁ l₂ : List Char) (h : l₂ ≠ []) : ∀ (d : Char),
    (l₁ ++ l₂).getLastD d = l₂.getLastD d := by
  induction l₁ with
  | nil => intro d; rfl
  | cons a t ih =>
    intro d
    rw [List.cons_append, List.getLastD_cons, ih a]
    cases l₂ with
    | nil => exact absurd rfl h
    | cons b t2 => rw [List.getLastD_cons, List.getLastD_cons]

theorem rstripComma_append_comma (s : String)
    (hlast : s.data.getLastD ' ' ≠ ',') : rstripComma (s ++ ",") = s := by
  have hdw : s.data.reverse.dropWhile (fun c => c = ',') = s.data.reverse := by
    cases hrev : s.data.reverse with
    | nil => rfl
    | cons c r =>
      rw [List.dropWhile_cons]
      have hcl : s.data.getLast? = some c := by
        rw [← List.head?_reverse, hrev]
        rfl
      have hc : c ≠ ',' := by
        intro hcc
        apply hlast
        rw [List.getLastD_eq_getLast?, hcl, hcc]
        rfl
      rw [if_neg (by simp [hc])]
  rw [rstripComma]
  rw [String.data_append]
  rw [show ("," : String).data = [','] from rfl]
  rw [List.reverse_append]
  rw [show ([','] : List Char).reverse = [','] from rfl]
  rw [List.singleton_append, List.dropWhile_cons]
  rw [if_pos (by decide)]
  rw [hdw, List.reverse_reverse]

theorem charNeComma (d : Nat) (hd : d < 10) : natDigitChar d ≠ ',' := by
  interval_cases d <;> decide

theorem natToStr_last (n : Nat) :
    (natToStr n).data ≠ [] ∧ (natToStr n).data.getLastD ' ' ≠ ',' := by
  cases n with
  | zero => refine ⟨by decide, by decide⟩
  | succ m =>
    rw [show natToStr (m + 1) = String.mk (natDigitsAux (m + 1) (m + 1)) from
      if_neg (by omega)]
    rw [show (String.mk (natDigitsAux (m + 1) (m + 1))).data
        = natDigitsAux (m + 1) (m + 1) from rfl]
    rw [show natDigitsAux (m + 1) (m + 1)
        = natDigitsAux m ((m + 1) / 10) ++ [natDigitChar ((m + 1) % 10)] from rfl]
    constructor
    · simp
    · rw [List.getLastD_concat]
      exact charNeComma _ (Nat.mod_lt _ (by omega))

theorem intToStr_last (i : Int) :
    (intToStr i).data ≠ [] ∧ (intToStr i).data.getLastD ' ' ≠ ',' := by
  rw [intToStr]
  by_cases hi : i < 0
  · rw [if_pos hi]
    rw [String.data_append]
    rw [show ("-" : String).data = ['-'] from rfl]
    have h := natToStr_last i.natAbs
    constructor
    · simp
    · rw [getLastD_append_right ['-'] _ h.1]
      exact h.2
  · rw [if_neg hi]
    exact natToStr_last i.natAbs

theorem runText_last (p : Int × Int) :
    (runText p).data ≠ [] ∧ (runText p).data.getLastD ' ' ≠ ',' := by
  rw [runText]
  by_cases hp : p.1 = p.2
  · rw [if_pos hp]
    exact intToStr_last p.1
  · rw [if_neg hp]
    rw [String.data_append]
    have h := intToStr_last p.2
    constructor
    · simp [h.1]
    · rw [getLastD_append_right _ _ h.1]
      exact h.2

theorem joinComma_last (rest : List String) : ∀ (p : String),
    (∀ s ∈ p :: rest, s.data ≠ [] ∧ s.data.getLastD ' ' ≠ ',') →
    (joinComma (p :: rest)).data ≠ [] ∧ (joinComma (p :: rest)).data.getLastD ' ' ≠ ',' := by
  induction rest with
  | nil =>
    intro p h
    exact h p (by simp)
  | cons q rest ih =>
    intro p h
    rw [show joinComma (p :: q :: rest) = p ++ "," ++ joinComma (q :: rest) from rfl]
    have hq := ih q (fun s hs => h s (by simp at hs ⊢; tauto))
    rw [strAppend_assoc, String.data_append, String.data_append]
    rw [show ("," : String).data = [','] from rfl]
    constructor
    · simp
    · rw [getLastD_append_right _ _ (by simp)]
      rw [getLastD_append_right _ _ hq.1]
      exact hq.2

theorem runsAux_ne_nil (ys : List Int) : ∀ (a cur : Int), runsAux a cur ys ≠ [] := by
  induction ys with
  | nil => intro a cur; simp [runsAux]
  | cons y ys ih =>
    intro a cur
    rw [runsAux]
    by_cases hc : y = cur + 1
    · rw [if_pos hc]; exact ih a y
    · rw [if_neg hc]; simp

theorem ranges_eq_spec (nums : List Int) :
    ranges_and_strides nums = spec_ranges_format nums := by
  cases nums with
  | nil => rfl
  | cons x xs =>
    rw [ranges_and_strides, spec_ranges_format]
    rw [← List.foldl_map]
    rw [groups_eq_runs]
    rw [show (maxRuns (x :: xs)).map (fun p => runText p ++ ",")
        = ((maxRuns (x :: xs)).map runText).map (fun s => s ++ ",") by
      rw [List.map_map]
      rfl]
    rw [foldl_append_concat]
    obtain ⟨p, rest, hparts⟩ : ∃ p rest, (maxRuns (x :: xs)).map runText = p :: rest := by
      cases hm : maxRuns (x :: xs) with
      | nil => exact absurd hm (by rw [show maxRuns (x :: xs) = runsAux x x xs from rfl]; exact runsAux_ne_nil xs x x)
      | cons a t => exact ⟨runText a, t.map runText, by simp [hm]⟩
    rw [hparts]
    rw [concatStr_map_comma]
    rw [← strAppend_assoc]
    have hok : ∀ s ∈ p :: rest, s.data ≠ [] ∧ s.data.getLastD ' ' ≠ ',' := by
      intro s hs
      rw [← hparts] at hs
      obtain ⟨q, hq, rfl⟩ := List.mem_map.mp hs
      exact runText_last q
    have hjc := joinComma_last rest p hok
    rw [rstripComma_append_comma ("[" ++ joinComma (p :: rest)) ?hl]
    case hl =>
      rw [String.data_append]
      rw [show ("[" : String).data = ['['] from rfl]
      rw [getLastD_append_right _ _ hjc.1]
      exact hjc.2

/-- C4: the login charm's relation fact exchange: a notification with no
counterpart application or no application data bucket does nothing (no
defer, no event); a bucket whose `cluster_info` key is absent or empty
defers the notification; a `cluster_info` value that fails to decode makes
the decode error propagate; otherwise exactly one available event with the
decoded fields is emitted. -/
theorem c4_relation_changed_cases
    (loads : String → Except String SackdClusterInfo)
    (appData : Option (List (String × String)))
    (dEmpty dBad dGood : List (String × String))
    (jBad jGood e : String) (info : SackdClusterInfo)
    (hEmpty : (dEmpty.lookup "cluster_info").getD "" = "")
    (hBadLk : dBad.lookup "cluster_info" = some jBad) (hBadNe : jBad ≠ "")
    (hBadLoads : loads jBad = .error e)
    (hGoodLk : dGood.lookup "cluster_info" = some jGood) (hGoodNe : jGood ≠ "")
    (hGoodLoads : loads jGood = .ok info) :
    sackd_on_relation_changed false appData loads = .noop
    ∧ sackd_on_relation_changed true none loads = .noop
    ∧ sackd_on_relation_changed true (some dEmpty) loads = .defer
    ∧ sackd_on_relation_changed true (some dBad) loads = .raised e
    ∧ sackd_on_relation_changed true (some dGood) loads = .emitAvailable info := by
  refine ⟨rfl, rfl, ?_, ?_, ?_⟩
  · simp [sackd_on_relation_changed, hEmpty]
  · simp [sackd_on_relation_changed, hBadLk, hBadNe, hBadLoads]
  · simp [sackd_on_relation_changed, hGoodLk, hGoodNe, hGoodLoads]

/-- C4, witness: the four relation-data shapes at concrete values. -/
theorem c4_relation_changed_cases_witness :
    sackd_on_relation_changed false none
        (fun s => if s = "good" then Except.ok ⟨some "k", some "h"⟩
                  else Except.error "JSONDecodeError") = .noop
    ∧ sackd_on_relation_changed true none
        (fun s => if s = "good" then Except.ok ⟨some "k", some "h"⟩
                  else Except.error "JSONDecodeError") = .noop
    ∧ sackd_on_relation_changed true (some [])
        (fun s => if s = "good" then Except.ok ⟨some "k", some "h"⟩
                  else Except.error "JSONDecodeError") = .defer
    ∧ sackd_on_relation_changed true (some [("cluster_info", "bad")])
        (fun s => if s = "good" then Except.ok ⟨some "k", some "h"⟩
                  else Except.error "JSONDecodeError") = .raised "JSONDecodeError"
    ∧ sackd_on_relation_changed true (some [("cluster_info", "good")])
        (fun s => if s = "good" then Except.ok ⟨some "k", some "h"⟩
                  else Except.error "JSONDecodeError")
        = .emitAvailable ⟨some "k", some "h"⟩ :=
  c4_relation_changed_cases
    (fun s => if s = "good" then Except.ok ⟨some "k", some "h"⟩
              else Except.error "JSONDecodeError")
    none [] [("cluster_info", "bad")] [("cluster_info", "good")]
    "bad" "good" "JSONDecodeError" ⟨some "k", some "h"⟩
    (by decide) (by decide) (by decide) (by decide) (by decide) (by decide) (by decide)

/-- C5, counterexample: for the controller charm the claim fails at the
malformed override "FAILEVAL": the config-changed handler stores the raw
string (the stored override state changes from its prior empty value), and
parsing it during configuration assembly raises `IndexError`, which is not
caught anywhere in the handler chain. -/
theorem c5_counterexample :
    ctld_config_changed_params "" (some "FAILEVAL") = ("FAILEVAL", true)
    ∧ get_user_supplied_parameters "FAILEVAL"
        = Except.error "IndexError: list index out of range" := by
  refine ⟨by decide, by decide⟩

/-- C5 (amended): for the compute charm, a partition-config string with a
malformed item makes `_on_config_changed` reject the update: the stored
partition override is unchanged, the handler returns normally (no defer, no
escaping exception).  The controller charm, by contrast, stores a changed
`slurm-conf-parameters` string as-is in `_on_config_changed`, and a
malformed line in it makes `_get_user_supplied_parameters` raise
`IndexError` during the assembly that follows. -/
theorem c5_malformed_config_amended
    (validKeys : List String) (s : SlurmdState) (isLeader : Bool) (nhcConf : String)
    (cfg : String) (stored raw : String)
    (hbad : ∃ item ∈ pySplitWs cfg, noEqSign item = true)
    (hraw : raw ≠ "")
    (hrawbad : ∃ line ∈ pySplitOn '\n' raw,
        (!(startsWithHash line) && pyStrip line != "") = true ∧ noEqSign line = true)
    (hne : raw ≠ stored) :
    (slurmd_on_config_changed validKeys s isLeader nhcConf
        (some cfg)).1.user_supplied_partition_parameters
        = s.user_supplied_partition_parameters
    ∧ (slurmd_on_config_changed validKeys s isLeader nhcConf (some cfg)).2
        = HandlerOutcome.ret
    ∧ ctld_config_changed_params stored (some raw) = (raw, true)
    ∧ isError (get_user_supplied_parameters raw) = true := by
  refine ⟨(slurmd_config_changed_malformed validKeys s isLeader nhcConf cfg hbad).1,
          (slurmd_config_changed_malformed validKeys s isLeader nhcConf cfg hbad).2,
          ?_, get_user_supplied_parameters_error raw hraw hrawbad⟩
  simp [ctld_config_changed_params, bne_iff_ne, hne]

/-- C5 amended, witness: the malformed override "FAILEVAL" against an
initial compute state and an empty prior controller override. -/
theorem c5_malformed_config_amended_witness :
    (slurmd_on_config_changed [] ⟨"", true, "", "", false, false, "", [], [], false⟩ true ""
        (some "FAILEVAL")).1.user_supplied_partition_parameters
        = SlurmdState.user_supplied_partition_parameters
            ⟨"", true, "", "", false, false, "", [], [], false⟩
    ∧ (slurmd_on_config_changed [] ⟨"", true, "", "", false, false, "", [], [], false⟩ true ""
        (some "FAILEVAL")).2 = HandlerOutcome.ret
    ∧ ctld_config_changed_params "" (some "FAILEVAL") = ("FAILEVAL", true)
    ∧ isError (get_user_supplied_parameters "FAILEVAL") = true :=
  c5_malformed_config_amended [] ⟨"", true, "", "", false, false, "", [], [], false⟩ true ""
    "FAILEVAL" "" "FAILEVAL"
    (by decide) (by decide) (by decide) (by decide)

/-- C7: for both the compute and login charms, every event other than the
controller-unavailable event preserves a raised availability flag, and the
controller-unavailable handler is exactly the operation that clears the
role-populated fields, disables the dependent service and drops the
flag. -/
theorem c7_availability_monotone
    (validP validN : List String) (s : SlurmdState) (e : SlurmdEvent)
    (s2 : SackdState) (e2 : SackdEvent)
    (he : e ≠ .ctldUnavailable) (hs : s.slurmctld_available = true)
    (he2 : e2 ≠ .ctldUnavailable) (hs2 : s2.slurmctld_available = true) :
    (slurmd_step validP validN s e).slurmctld_available = true
    ∧ slurmd_step validP validN s .ctldUnavailable
        = { s with slurmctld_available := false, nhc_params := "", munge_key := "",
                   slurmctld_host := "", service_enabled := false }
    ∧ (sackd_step s2 e2).slurmctld_available = true
    ∧ sackd_step s2 .ctldUnavailable
        = { s2 with slurmctld_available := false, auth_key := "", slurmctld_host := "",
                    service_enabled := false } := by
  refine ⟨?_, rfl, ?_, rfl⟩
  · cases e with
    | install success => cases success <;> simpa [slurmd_step] using hs
    | configChanged l n p =>
      simp only [slurmd_step]
      rw [slurmd_config_changed_avail]
      exact hs
    | updateStatus => simpa [slurmd_step] using hs
    | ctldAvailable h k n =>
      simp only [slurmd_step]
      exact slurmd_available_monotone s h k n hs
    | ctldUnavailable => exact absurd rfl he
    | slurmdStarted => simpa [slurmd_step] using hs
    | slurmdStopped => simpa [slurmd_step] using hs
    | nodeConfigured => simpa [slurmd_step] using hs
    | nodeConfig p =>
      simp only [slurmd_step]
      rw [slurmd_node_config_avail]
      exact hs
  · cases e2 with
    | install success => cases success <;> simpa [sackd_step] using hs2
    | updateStatus => simpa [sackd_step] using hs2
    | ctldAvailable h k =>
      simp only [sackd_step]
      exact sackd_available_monotone s2 h k hs2
    | ctldUnavailable => exact absurd rfl he2

/-- C7, witness: an update-status heartbeat on states whose flags are
raised. -/
theorem c7_availability_monotone_witness :
    (slurmd_step [] [] ⟨"mk", true, "", "np", true, true, "host", [], [], true⟩
        .updateStatus).slurmctld_available = true
    ∧ slurmd_step [] [] ⟨"mk", true, "", "np", true, true, "host", [], [], true⟩
        .ctldUnavailable
        = { (⟨"mk", true, "", "np", true, true, "host", [], [], true⟩ : SlurmdState) with
            slurmctld_available := false, nhc_params := "", munge_key := "",
            slurmctld_host := "", service_enabled := false }
    ∧ (sackd_step ⟨"ak", true, true, "host", true⟩ .updateStatus).slurmctld_available = true
    ∧ sackd_step ⟨"ak", true, true, "host", true⟩ .ctldUnavailable
        = { (⟨"ak", true, true, "host", true⟩ : SackdState) with
            slurmctld_available := false, auth_key := "", slurmctld_host := "",
            service_enabled := false } :=
  c7_availability_monotone [] [] ⟨"mk", true, "", "np", true, true, "host", [], [], true⟩
    .updateStatus ⟨"ak", true, true, "host", true⟩ .updateStatus
    (by decide) (by decide) (by decide) (by decide)

/-- C6, counterexample: with a recorded database host and otherwise empty
inputs, the assembled document contains exactly four `AccountingStorage*`
parameters, not the five the claim states. -/
theorem c6_counterexample :
    ((docOf (assemble_slurm_conf ⟨false, "charmedhpc", "10.0.0.1", "ctl-0", [], "10.0.0.5",
        ""⟩)).filter (fun kv => strStartsWith "AccountingStorage" kv.1)).length ≠ 5
    ∧ ((docOf (assemble_slurm_conf ⟨false, "charmedhpc", "10.0.0.1", "ctl-0", [], "10.0.0.5",
        ""⟩)).filter (fun kv => strStartsWith "AccountingStorage" kv.1)).length = 4 := by
  refine ⟨by decide, by decide⟩

/-- C6 (amended): provided the compute-node parameters and user overrides
contribute no `AccountingStorage*` key, a successfully assembled document
contains an `AccountingStorage*` key iff the stored database host is
non-empty; when it is, the four accounting-storage parameters (host, type,
credential-socket-path, port) are all present, and every
`AccountingStorage*` entry of the document is one of those four; when it is
not, no such key is present at all. -/
theorem c6_accounting_block_amended (inp : AssembleInputs)
    (hOk : isError (assemble_slurm_conf inp) = false)
    (hSlurmd : ∀ kv ∈ inp.slurmdParameters, strStartsWith "AccountingStorage" kv.1 = false)
    (hUser : ∀ u, get_user_supplied_parameters inp.userSuppliedRaw = Except.ok u →
        ∀ kv ∈ u, strStartsWith "AccountingStorage" kv.1 = false) :
    ((∃ kv ∈ docOf (assemble_slurm_conf inp), strStartsWith "AccountingStorage" kv.1 = true)
        ↔ inp.slurmdbdHost ≠ "")
    ∧ (inp.slurmdbdHost ≠ "" →
        [("AccountingStorageHost", ConfValue.str inp.slurmdbdHost),
         ("AccountingStorageType", ConfValue.str "accounting_storage/slurmdbd"),
         ("AccountingStoragePass", ConfValue.str "/var/run/munge/munge.socket.2"),
         ("AccountingStoragePort", ConfValue.str "6819")]
          ⊆ docOf (assemble_slurm_conf inp))
    ∧ (∀ kv ∈ docOf (assemble_slurm_conf inp), strStartsWith "AccountingStorage" kv.1 = true →
        kv ∈ [("AccountingStorageHost", ConfValue.str inp.slurmdbdHost),
              ("AccountingStorageType", ConfValue.str "accounting_storage/slurmdbd"),
              ("AccountingStoragePass", ConfValue.str "/var/run/munge/munge.socket.2"),
              ("AccountingStoragePort", ConfValue.str "6819")]) := by
  obtain ⟨doc, hdoc⟩ : ∃ doc, assemble_slurm_conf inp = Except.ok doc := by
    cases h : assemble_slurm_conf inp with
    | ok d => exact ⟨d, rfl⟩
    | error e => rw [h] at hOk; simp [isError] at hOk
  have hdocOf : docOf (assemble_slurm_conf inp) = doc := by rw [hdoc]; rfl
  obtain ⟨u, sp, hu, hsp, hctx⟩ := assemble_decompose inp doc hdoc
  rw [hdocOf]
  have h3 : ∀ kv ∈ doc, strStartsWith "AccountingStorage" kv.1 = true →
      kv ∈ (if inp.slurmdbdHost != "" then
              [("AccountingStorageHost", ConfValue.str inp.slurmdbdHost),
               ("AccountingStorageType", ConfValue.str "accounting_storage/slurmdbd"),
               ("AccountingStoragePass", ConfValue.str "/var/run/munge/munge.socket.2"),
               ("AccountingStoragePort", ConfValue.str "6819")]
            else []) := by
    intro kv hkv hpre
    rw [hctx] at hkv
    simp only [List.mem_append] at hkv
    rcases hkv with ((((hkv | hkv) | hkv) | hkv) | hkv)
    · simp only [List.mem_cons, List.not_mem_nil, or_false] at hkv
      rcases hkv with rfl | rfl | rfl | rfl | rfl | rfl <;> dsimp only at hpre <;>
        exact absurd hpre (by decide)
    · exact hkv
    · have hfalse := charm_params_not_accounting kv hkv
      rw [hfalse] at hpre
      exact Bool.noConfusion hpre
    · have hfalse := hSlurmd kv hkv
      rw [hfalse] at hpre
      exact Bool.noConfusion hpre
    · obtain ⟨p, hp, rfl⟩ := List.mem_map.mp hkv
      have hfalse : strStartsWith "AccountingStorage" p.1 = false := hUser u hu p hp
      have hpre2 : strStartsWith "AccountingStorage" p.1 = true := hpre
      rw [hfalse] at hpre2
      exact Bool.noConfusion hpre2
  by_cases hdb : (inp.slurmdbdHost != "") = true
  · have hne : inp.slurmdbdHost ≠ "" := bne_iff_ne.mp hdb
    refine ⟨⟨fun _ => hne, fun _ => ?_⟩, fun _ => ?_, fun kv hk hp => ?_⟩
    · refine ⟨("AccountingStorageHost", ConfValue.str inp.slurmdbdHost), ?_, rfl⟩
      rw [hctx, if_pos hdb]
      simp
    · intro x hx
      rw [hctx, if_pos hdb]
      simp only [List.mem_cons, List.not_mem_nil, or_false] at hx
      rcases hx with rfl | rfl | rfl | rfl
      all_goals simp
    · have := h3 kv hk hp
      rwa [if_pos hdb] at this
  · have heq : inp.slurmdbdHost = "" := by
      rw [Bool.not_eq_true, bne_eq_false_iff_eq] at hdb
      exact hdb
    refine ⟨⟨?_, fun hcon => absurd heq hcon⟩, fun hcon => absurd heq hcon, fun kv hk hp => ?_⟩
    · rintro ⟨kv, hkv, hpre⟩
      have := h3 kv hkv hpre
      rw [if_neg hdb] at this
      exact absurd this (List.not_mem_nil kv)
    · have := h3 kv hk hp
      rw [if_neg hdb] at this
      exact absurd this (List.not_mem_nil kv)

/-- C6 amended, witness: a recorded database host `10.0.0.5`, no compute
parameters and no user overrides. -/
theorem c6_accounting_block_amended_witness :
    ((∃ kv ∈ docOf (assemble_slurm_conf
        ⟨false, "charmedhpc", "10.0.0.1", "ctl-0", [], "10.0.0.5", ""⟩),
        strStartsWith "AccountingStorage" kv.1 = true) ↔ ("10.0.0.5" : String) ≠ "")
    ∧ (("10.0.0.5" : String) ≠ "" →
        [("AccountingStorageHost", ConfValue.str "10.0.0.5"),
         ("AccountingStorageType", ConfValue.str "accounting_storage/slurmdbd"),
         ("AccountingStoragePass", ConfValue.str "/var/run/munge/munge.socket.2"),
         ("AccountingStoragePort", ConfValue.str "6819")]
          ⊆ docOf (assemble_slurm_conf
              ⟨false, "charmedhpc", "10.0.0.1", "ctl-0", [], "10.0.0.5", ""⟩))
    ∧ (∀ kv ∈ docOf (assemble_slurm_conf
          ⟨false, "charmedhpc", "10.0.0.1", "ctl-0", [], "10.0.0.5", ""⟩),
        strStartsWith "AccountingStorage" kv.1 = true →
        kv ∈ [("AccountingStorageHost", ConfValue.str "10.0.0.5"),
              ("AccountingStorageType", ConfValue.str "accounting_storage/slurmdbd"),
              ("AccountingStoragePass", ConfValue.str "/var/run/munge/munge.socket.2"),
              ("AccountingStoragePort", ConfValue.str "6819")]) :=
  c6_accounting_block_amended ⟨false, "charmedhpc", "10.0.0.1", "ctl-0", [], "10.0.0.5", ""⟩
    (by decide) (by decide)
    (fun u hu => by
      have h0 : get_user_supplied_parameters "" = Except.ok ([] : List (String × String)) := rfl
      rw [h0] at hu
      have hueq : ([] : List (String × String)) = u := Except.ok.inj hu
      intro kv hkv
      rw [← hueq] at hkv
      exact absurd hkv (List.not_mem_nil kv))

/-- C10: in every state of the controller reachable by login-node relation
events from a fresh unit, a non-empty published `cluster_info` implies the
installation completed; relation-created before installation defers and
writes nothing, and once installed it publishes exactly the two-key object
with the stored munge key and the controller hostname. -/
theorem c10_cluster_info_gated (hostname : String) (events : List CtldSackdEvent)
    (s₁ s₂ : CtldSackdRelState)
    (h₁ : s₁.slurm_installed = false) (h₂ : s₂.slurm_installed = true) :
    ((ctld_sackd_run (ctld_sackd_init hostname) events).cluster_info.isSome = true →
      (ctld_sackd_run (ctld_sackd_init hostname) events).slurm_installed = true)
    ∧ ctld_sackd_step s₁ .relationCreated = (s₁, .defer)
    ∧ ctld_sackd_step s₂ .relationCreated
        = ({ s₂ with cluster_info := some [("auth_key", s₂.munge_key), ("slurmctld_host", s₂.hostname)] }, .ret) := by
  refine ⟨ctld_sackd_run_inv events _ (fun hh => Bool.noConfusion hh), ?_, ?_⟩
  · simp [ctld_sackd_step, h₁]
  · simp [ctld_sackd_step, h₂]

/-- C10, witness: a fresh unit that installs and then sees the relation
created, plus the two relation-created handler cases at concrete states. -/
theorem c10_cluster_info_gated_witness :
    ((ctld_sackd_run (ctld_sackd_init "ctl-0")
        [.installSucceeded "mungekey", .relationCreated]).cluster_info.isSome = true →
      (ctld_sackd_run (ctld_sackd_init "ctl-0")
        [.installSucceeded "mungekey", .relationCreated]).slurm_installed = true)
    ∧ ctld_sackd_step ⟨false, "", "ctl-0", none⟩ .relationCreated
        = (⟨false, "", "ctl-0", none⟩, .defer)
    ∧ ctld_sackd_step ⟨true, "mungekey", "ctl-0", none⟩ .relationCreated
        = ({ (⟨true, "mungekey", "ctl-0", none⟩ : CtldSackdRelState) with cluster_info := some [("auth_key", "mungekey"), ("slurmctld_host", "ctl-0")] }, .ret) :=
  c10_cluster_info_gated "ctl-0" [.installSucceeded "mungekey", .relationCreated]
    ⟨false, "", "ctl-0", none⟩ ⟨true, "mungekey", "ctl-0", none⟩ (by decide) (by decide)

/-- C9: the ranges-and-strides formatter renders
`[0,1,2,3,4,5,6,8,9,10,12,14,15,16,18]` as `"[0-6,8-10,12,14-16,18]"`, and
for every strictly ascending list of integers it returns the bracketed
comma-separated list in which each maximal run of consecutive values of
length at least two appears as `first-last` and each isolated value appears
alone. -/
theorem c9_ranges_and_strides (nums : List Int)
    (_hasc : strictAsc nums = true) :
    ranges_and_strides [0, 1, 2, 3, 4, 5, 6, 8, 9, 10, 12, 14, 15, 16, 18]
      = "[0-6,8-10,12,14-16,18]"
    ∧ ranges_and_strides nums = spec_ranges_format nums :=
  ⟨by decide, ranges_eq_spec nums⟩

/-- C9, witness: the example list of the claim is strictly ascending and the
formatter agrees with the spec-side rendering on it. -/
theorem c9_ranges_and_strides_witness :
    strictAsc [0, 1, 2, 3, 4, 5, 6, 8, 9, 10, 12, 14, 15, 16, 18] = true
    ∧ (ranges_and_strides [0, 1, 2, 3, 4, 5, 6, 8, 9, 10, 12, 14, 15, 16, 18]
        = "[0-6,8-10,12,14-16,18]"
      ∧ ranges_and_strides [0, 1, 2, 3, 4, 5, 6, 8, 9, 10, 12, 14, 15, 16, 18]
        = spec_ranges_format [0, 1, 2, 3, 4, 5, 6, 8, 9, 10, 12, 14, 15, 16, 18]) :=
  ⟨by decide, c9_ranges_and_strides [0, 1, 2, 3, 4, 5, 6, 8, 9, 10, 12, 14, 15, 16, 18]
    (by decide)⟩

end SlurmCharms
